import Mathlib

/-!
Verification of the session-memory manager of
`all_agents_tutorials/memory_enhanced_conversational_agent.ipynb`.

The notebook keeps two module-level Python dicts,

  chat_store = {}          -- session_id ↦ ChatMessageHistory
  long_term_memory = {}    -- session_id ↦ list of fact strings

and exposes three functions over them (`get_chat_history`,
`update_long_term_memory`, `get_long_term_memory`) plus a `chat` driver.
We embed the dicts as association lists (first binding for a key wins,
as in a Python dict there is at most one binding per key), the functions
as explicit state-passing Lean functions, and prove the spec's claims
about them.
-/

set_option autoImplicit false

namespace MemoryAgent

/-- One message of a session's short-term history (the notebook stores
`HumanMessage` / `AIMessage` objects inside `ChatMessageHistory`; only the
role tag and the text matter here). -/
structure Message where
  role : String
  content : String
deriving DecidableEq, Repr

/-- The contents of one `ChatMessageHistory`, in conversation order. -/
abbrev ChatHist := List Message

/-- A Python dict embedded as an association list: at most one binding per
key in every reachable value, lookup returns the first binding. -/
abbrev Dict (α : Type) := List (String × α)

/-- `d[k]` / `d.get(k)`: first binding for `k`, if any. -/
def dictLookup {α : Type} (d : Dict α) (k : String) : Option α :=
  match d with
  | [] => none
  | (k', v) :: rest => if k' = k then some v else dictLookup rest k

/-- `d[k] = v`: replace the first binding for `k`, or append a new binding
(Python dicts keep insertion order, so a fresh key goes to the end). -/
def dictInsert {α : Type} (d : Dict α) (k : String) (v : α) : Dict α :=
  match d with
  | [] => [(k, v)]
  | (k', v') :: rest =>
    if k' = k then (k', v) :: rest else (k', v') :: dictInsert rest k v

/-- The whole mutable state of the notebook's memory manager: the two
module-level dicts. -/
structure MemState where
  chat_store : Dict ChatHist
  long_term_memory : Dict (List String)
deriving DecidableEq, Repr

/-- The state right after the dict-creating cell runs: both dicts empty. -/
def init : MemState := { chat_store := [], long_term_memory := [] }

/--
```python
def get_chat_history(session_id: str):
    if session_id not in chat_store:
        chat_store[session_id] = ChatMessageHistory()
    return chat_store[session_id]
```
Returns the (possibly freshly created, empty) history together with the
updated global state. -/
def get_chat_history (s : MemState) (session_id : String) : ChatHist × MemState :=
  match dictLookup s.chat_store session_id with
  | some h => (h, s)
  | none =>
    ([], { s with chat_store := dictInsert s.chat_store session_id [] })

/--
```python
def update_long_term_memory(session_id: str, input: str, output: str):
    if session_id not in long_term_memory:
        long_term_memory[session_id] = []
    if len(input) > 20:  # Simple logic: store inputs longer than 20 characters
        long_term_memory[session_id].append(f"User said: {input}")
    if len(long_term_memory[session_id]) > 5:  # Keep only last 5 memories
        long_term_memory[session_id] = long_term_memory[session_id][-5:]
```
`l[-5:]` on a list of length `> 5` is its last five elements,
i.e. `l.drop (l.length - 5)`.  The `output` argument is never read. -/
def update_long_term_memory (s : MemState) (session_id input output : String) :
    MemState :=
  let ltm0 :=
    match dictLookup s.long_term_memory session_id with
    | some _ => s.long_term_memory
    | none => dictInsert s.long_term_memory session_id []
  let ltm1 :=
    if input.length > 20 then
      dictInsert ltm0 session_id
        (((dictLookup ltm0 session_id).getD []) ++ ["User said: " ++ input])
    else ltm0
  let cur := (dictLookup ltm1 session_id).getD []
  if cur.length > 5 then
    { s with long_term_memory := dictInsert ltm1 session_id (cur.drop (cur.length - 5)) }
  else
    { s with long_term_memory := ltm1 }

/--
```python
def get_long_term_memory(session_id: str):
    return ". ".join(long_term_memory.get(session_id, []))
```
The body reads the dict but never writes, so the returned state is the
input state unchanged. -/
def get_long_term_memory (s : MemState) (session_id : String) : String × MemState :=
  (String.intercalate ". " ((dictLookup s.long_term_memory session_id).getD []), s)

/-- The fact list currently retained for a session (`[]` when the session
has no long-term entry, exactly as `long_term_memory.get(session_id, [])`
reads it). -/
def factsOf (s : MemState) (session_id : String) : List String :=
  (dictLookup s.long_term_memory session_id).getD []

/--
```python
def chat(input_text: str, session_id: str):
    long_term_mem = get_long_term_memory(session_id)
    response = chain_with_history.invoke(
        {"input": input_text, "long_term_memory": long_term_mem},
        config={"configurable": {"session_id": session_id}}
    )
    update_long_term_memory(session_id, input_text, response.content)
    return response.content
```
The language-model call is external; `response` stands for the text it
returns.  Modelled from the spec: `chain_with_history.invoke` (the external
`RunnableWithMessageHistory` wrapper configured with `get_chat_history`)
fetches the session's history via `get_chat_history` and appends the human
input and the model response to it, which the spec describes as the manager
appending the new turn to the short-term buffer after the external call. -/
def chat (s : MemState) (session_id input_text response : String) :
    String × MemState :=
  let (_ltm, s1) := get_long_term_memory s session_id
  let (h, s2) := get_chat_history s1 session_id
  let s3 := { s2 with
    chat_store := dictInsert s2.chat_store session_id
      (h ++ [⟨"human", input_text⟩, ⟨"ai", response⟩]) }
  let s4 := update_long_term_memory s3 session_id input_text response
  (response, s4)

/-- The public operations of the memory manager, each tagged with the
session id it is invoked for.  `updateLongTerm` and `chatTurn` carry the
caller-supplied input and the (externally produced) response text. -/
inductive Op where
  | getChatHistory (session_id : String)
  | updateLongTerm (session_id input output : String)
  | getLongTerm (session_id : String)
  | chatTurn (session_id input response : String)
deriving DecidableEq, Repr

/-- The session id an operation is invoked with. -/
def Op.sid : Op → String
  | .getChatHistory id => id
  | .updateLongTerm id _ _ => id
  | .getLongTerm id => id
  | .chatTurn id _ _ => id

/-- State transition of one public operation (discarding returned values). -/
def step (s : MemState) : Op → MemState
  | .getChatHistory id => (get_chat_history s id).2
  | .updateLongTerm id inp out => update_long_term_memory s id inp out
  | .getLongTerm id => (get_long_term_memory s id).2
  | .chatTurn id inp resp => (chat s id inp resp).2

/-- The error taxonomy the spec postulates for the manager.  The notebook
itself defines no error type; this type exists to state claims about
failures. -/
inductive MemError where
  | invalidSessionId
deriving DecidableEq, Repr

/-- `get_chat_history` viewed as a fallible call.  Its Python body contains
no validation and no raise statement, so every call returns successfully;
the embedding therefore always produces `Except.ok`. -/
def get_chat_history_checked (s : MemState) (session_id : String) :
    Except MemError (ChatHist × MemState) :=
  Except.ok (get_chat_history s session_id)

/-- Every long-term entry holds at most five facts (the capacity bound of
the spec, with the notebook's hard-coded capacity 5). -/
def ltmWithinCapacity (s : MemState) : Prop :=
  ∀ e ∈ s.long_term_memory, e.2.length ≤ 5

theorem dictLookup_dictInsert_self {α : Type} (d : Dict α) (k : String) (v : α) :
    dictLookup (dictInsert d k v) k = some v := by
  induction d with
  | nil => simp [dictInsert, dictLookup]
  | cons e rest ih =>
    obtain ⟨k', v'⟩ := e
    by_cases h : k' = k
    · simp [dictInsert, dictLookup, h]
    · simp [dictInsert, dictLookup, h, ih]

theorem dictLookup_dictInsert_ne {α : Type} (d : Dict α) (k k' : String) (v : α)
    (h : k ≠ k') : dictLookup (dictInsert d k v) k' = dictLookup d k' := by
  induction d with
  | nil => simp [dictInsert, dictLookup, h]
  | cons e rest ih =>
    obtain ⟨k₀, v₀⟩ := e
    by_cases h₀ : k₀ = k
    · subst h₀
      simp [dictInsert, dictLookup, h]
    · simp [dictInsert, dictLookup, h₀, ih]

theorem mem_dictInsert {α : Type} (d : Dict α) (k : String) (v : α) (e : String × α)
    (he : e ∈ dictInsert d k v) : e ∈ d ∨ e = (k, v) := by
  induction d with
  | nil =>
    simp only [dictInsert, List.mem_singleton] at he
    exact Or.inr he
  | cons e₀ rest ih =>
    obtain ⟨k₀, v₀⟩ := e₀
    by_cases h₀ : k₀ = k
    · subst h₀
      simp only [dictInsert, if_true, eq_self_iff_true, List.mem_cons] at he
      rcases he with he | hmem
      · exact Or.inr he
      · exact Or.inl (List.mem_cons_of_mem _ hmem)
    · simp only [dictInsert, if_neg h₀, List.mem_cons] at he
      rcases he with he | hmem
      · exact Or.inl (by rw [he]; exact List.mem_cons_self _ _)
      · rcases ih hmem with h' | h'
        · exact Or.inl (List.mem_cons_of_mem _ h')
        · exact Or.inr h'

theorem dictLookup_mem {α : Type} (d : Dict α) (k : String) (v : α)
    (h : dictLookup d k = some v) : (k, v) ∈ d := by
  induction d with
  | nil => simp [dictLookup] at h
  | cons e rest ih =>
    obtain ⟨k₀, v₀⟩ := e
    by_cases h₀ : k₀ = k
    · subst h₀
      simp [dictLookup] at h
      subst h
      exact List.mem_cons_self _ _
    · simp only [dictLookup, if_neg h₀] at h
      exact List.mem_cons_of_mem _ (ih h)

theorem dictInsert_dictInsert_self {α : Type} (d : Dict α) (k : String) (v w : α) :
    dictInsert (dictInsert d k v) k w = dictInsert d k w := by
  induction d with
  | nil => simp [dictInsert]
  | cons e rest ih =>
    obtain ⟨k₀, v₀⟩ := e
    by_cases h₀ : k₀ = k
    · simp [dictInsert, h₀]
    · simp [dictInsert, h₀, ih]

/-- What one `update_long_term_memory` call does to the invoked session's
fact list: append the fact when the input is longer than 20 characters,
then keep only the last five entries when the result exceeds five. -/
theorem factsOf_update_self (s : MemState) (sid inp out : String) :
    factsOf (update_long_term_memory s sid inp out) sid =
      (fun l => if l.length > 5 then l.drop (l.length - 5) else l)
        (factsOf s sid ++ if inp.length > 20 then ["User said: " ++ inp] else []) := by
  unfold update_long_term_memory factsOf
  cases h : dictLookup s.long_term_memory sid with
  | none =>
    by_cases hlen : inp.length > 20 <;>
      simp [h, hlen, dictLookup_dictInsert_self]
  | some l =>
    by_cases hlen : inp.length > 20
    · by_cases h5 : 5 < l.length + 1 <;>
        simp [h, hlen, h5, dictLookup_dictInsert_self]
    · by_cases h5 : 5 < l.length <;>
        simp [h, hlen, h5, dictLookup_dictInsert_self]

/-- `update_long_term_memory` never touches another session's long-term
entry. -/
theorem dictLookup_update_ne (s : MemState) (sid inp out k : String) (hk : sid ≠ k) :
    dictLookup (update_long_term_memory s sid inp out).long_term_memory k =
      dictLookup s.long_term_memory k := by
  unfold update_long_term_memory
  cases h : dictLookup s.long_term_memory sid with
  | none =>
    by_cases hlen : inp.length > 20 <;>
      simp [h, hlen, dictLookup_dictInsert_self, dictLookup_dictInsert_ne _ _ _ _ hk]
  | some l =>
    by_cases hlen : inp.length > 20
    · by_cases h5 : 5 < l.length + 1 <;>
        simp [h, hlen, h5, dictLookup_dictInsert_self,
          dictLookup_dictInsert_ne _ _ _ _ hk]
    · by_cases h5 : 5 < l.length <;>
        simp [h, hlen, h5, dictLookup_dictInsert_self,
          dictLookup_dictInsert_ne _ _ _ _ hk]

/-- `update_long_term_memory` never touches the chat store. -/
theorem chat_store_update (s : MemState) (sid inp out : String) :
    (update_long_term_memory s sid inp out).chat_store = s.chat_store := by
  unfold update_long_term_memory
  cases h : dictLookup s.long_term_memory sid with
  | none => by_cases hlen : inp.length > 20 <;> simp [h, hlen] <;> split <;> rfl
  | some l => by_cases hlen : inp.length > 20 <;> simp [h, hlen] <;> split <;> rfl

theorem dictInsert_self_of_lookup {α : Type} (d : Dict α) (k : String) (v : α)
    (h : dictLookup d k = some v) : dictInsert d k v = d := by
  induction d with
  | nil => simp [dictLookup] at h
  | cons e rest ih =>
    obtain ⟨k₀, v₀⟩ := e
    by_cases h₀ : k₀ = k
    · subst h₀
      simp [dictLookup] at h
      simp [dictInsert, h]
    · simp only [dictLookup, if_neg h₀] at h
      simp [dictInsert, h₀, ih h]

/-- Full characterization of `update_long_term_memory`'s effect on the
long-term dict: the invoked session's list gets the fact appended when the
input is longer than 20 characters, then is cut down to its last five
elements when it exceeds five; nothing else changes. -/
theorem update_ltm_eq (s : MemState) (sid inp out : String) :
    (update_long_term_memory s sid inp out).long_term_memory =
      dictInsert s.long_term_memory sid
        ((fun l => if l.length > 5 then l.drop (l.length - 5) else l)
          (factsOf s sid ++ if inp.length > 20 then ["User said: " ++ inp] else [])) := by
  unfold update_long_term_memory factsOf
  cases h : dictLookup s.long_term_memory sid with
  | none =>
    by_cases hlen : inp.length > 20 <;>
      simp [h, hlen, dictLookup_dictInsert_self, dictInsert_dictInsert_self]
  | some l =>
    by_cases hlen : inp.length > 20
    · by_cases h5 : 5 < l.length + 1 <;>
        simp [h, hlen, h5, dictLookup_dictInsert_self, dictInsert_dictInsert_self]
    · by_cases h5 : 5 < l.length <;>
        simp [h, hlen, h5, dictInsert_self_of_lookup _ _ _ h, dictInsert_dictInsert_self]

/-- `get_chat_history` never touches the long-term dict. -/
theorem get_chat_history_ltm (s : MemState) (sid : String) :
    ((get_chat_history s sid).2).long_term_memory = s.long_term_memory := by
  unfold get_chat_history
  cases h : dictLookup s.chat_store sid <;> simp [h]

/-- `get_chat_history` never touches another session's chat entry. -/
theorem get_chat_history_frame (s : MemState) (sid k : String) (hk : sid ≠ k) :
    dictLookup ((get_chat_history s sid).2).chat_store k =
      dictLookup s.chat_store k := by
  unfold get_chat_history
  cases h : dictLookup s.chat_store sid <;>
    simp [h, dictLookup_dictInsert_ne _ _ _ _ hk]

/-- The chat store after one `chat` turn: the invoked session's history got
the human input and the model response appended (after lazy creation);
`update_long_term_memory` leaves the chat store alone. -/
theorem chat_chat_store (s : MemState) (sid inp r : String) :
    (chat s sid inp r).2.chat_store =
      dictInsert ((get_chat_history s sid).2).chat_store sid
        ((get_chat_history s sid).1 ++ [⟨"human", inp⟩, ⟨"ai", r⟩]) := by
  unfold chat
  simp [get_long_term_memory, chat_store_update]

/-- One `chat` turn changes the long-term dict exactly as the underlying
`update_long_term_memory` call does. -/
theorem chat_ltm (s : MemState) (sid inp r : String) :
    (chat s sid inp r).2.long_term_memory =
      (update_long_term_memory s sid inp r).long_term_memory := by
  unfold chat
  simp only [get_long_term_memory]
  cases h : dictLookup s.chat_store sid <;>
    simp [get_chat_history, h, update_ltm_eq, factsOf]

/-- Under the capacity invariant, every session's fact list has at most
five entries. -/
theorem factsOf_length_le (s : MemState) (sid : String) (hs : ltmWithinCapacity s) :
    (factsOf s sid).length ≤ 5 := by
  unfold factsOf
  cases h : dictLookup s.long_term_memory sid with
  | none => simp
  | some l => simpa using hs _ (dictLookup_mem _ _ _ h)

theorem mem_keys_dictInsert {α : Type} (d : Dict α) (k a : String) (v : α)
    (ha : a ∈ (dictInsert d k v).map Prod.fst) :
    a ∈ d.map Prod.fst ∨ a = k := by
  rcases List.mem_map.1 ha with ⟨e, he, rfl⟩
  rcases mem_dictInsert _ _ _ _ he with h | h
  · exact Or.inl (List.mem_map_of_mem _ h)
  · right; rw [h]

theorem dictInsert_keys_nodup {α : Type} (d : Dict α) (k : String) (v : α)
    (hn : (d.map Prod.fst).Nodup) : ((dictInsert d k v).map Prod.fst).Nodup := by
  induction d with
  | nil => simp [dictInsert]
  | cons e rest ih =>
    obtain ⟨k₀, v₀⟩ := e
    by_cases h₀ : k₀ = k
    · simpa [dictInsert, h₀] using hn
    · simp only [List.map_cons, List.nodup_cons] at hn
      simp only [dictInsert, if_neg h₀, List.map_cons]
      refine List.nodup_cons.2 ⟨fun hmem => ?_, ih hn.2⟩
      rcases mem_keys_dictInsert _ _ _ _ hmem with h | h
      · exact hn.1 h
      · exact h₀ h

/-- In a dict with no duplicate keys, a key determines its value: at most
one binding per key. -/
theorem dict_functional {α : Type} (d : Dict α)
    (hn : (d.map Prod.fst).Nodup) (k : String) (v₁ v₂ : α)
    (h₁ : (k, v₁) ∈ d) (h₂ : (k, v₂) ∈ d) : v₁ = v₂ := by
  induction d with
  | nil => simp at h₁
  | cons e rest ih =>
    obtain ⟨k₀, v₀⟩ := e
    simp only [List.map_cons, List.nodup_cons] at hn
    rcases List.mem_cons.1 h₁ with he₁ | he₁ <;>
      rcases List.mem_cons.1 h₂ with he₂ | he₂
    · rw [Prod.mk.injEq] at he₁ he₂
      rw [he₁.2, he₂.2]
    · exfalso
      apply hn.1
      rw [Prod.mk.injEq] at he₁
      rw [← he₁.1]
      exact List.mem_map_of_mem _ he₂
    · exfalso
      apply hn.1
      rw [Prod.mk.injEq] at he₂
      rw [← he₂.1]
      exact List.mem_map_of_mem _ he₁
    · exact ih hn.2 he₁ he₂

/-- A state whose long-term dict agrees with a within-capacity state is
itself within capacity. -/
theorem ltmWithinCapacity_congr (s s' : MemState)
    (h : s'.long_term_memory = s.long_term_memory) (hs : ltmWithinCapacity s) :
    ltmWithinCapacity s' := fun e he => hs e (h ▸ he)

/-- `update_long_term_memory` preserves the capacity bound. -/
theorem update_preserves_capacity (s : MemState) (sid inp out : String)
    (hs : ltmWithinCapacity s) :
    ltmWithinCapacity (update_long_term_memory s sid inp out) := by
  intro e he
  rw [update_ltm_eq] at he
  rcases mem_dictInsert _ _ _ _ he with h | h
  · exact hs e h
  · rw [h]
    have hlen := factsOf_length_le s sid hs
    have hl6 : (factsOf s sid ++
        if inp.length > 20 then ["User said: " ++ inp] else []).length ≤ 6 := by
      rw [List.length_append]
      split <;> simp <;> omega
    by_cases h5 : (factsOf s sid ++
        if inp.length > 20 then ["User said: " ++ inp] else []).length > 5
    · simp only [h5, if_pos, List.length_drop]
      omega
    · simp only [h5, if_neg, if_false]
      omega

/-- Every public operation preserves the capacity bound. -/
theorem step_preserves_capacity (s : MemState) (op : Op) (hs : ltmWithinCapacity s) :
    ltmWithinCapacity (step s op) := by
  cases op with
  | getChatHistory sid =>
    exact ltmWithinCapacity_congr s _ (get_chat_history_ltm s sid) hs
  | updateLongTerm sid inp out => exact update_preserves_capacity s sid inp out hs
  | getLongTerm sid => exact hs
  | chatTurn sid inp r =>
    exact ltmWithinCapacity_congr _ _ (chat_ltm s sid inp r)
      (update_preserves_capacity s sid inp r hs)

example : factsOf (update_long_term_memory init "A" "123456789012345678901" "x") "A" =
    ["User said: 123456789012345678901"] := by decide

example : factsOf (update_long_term_memory init "A" "12345678901234567890" "x") "A" = [] := by
  decide

example : update_long_term_memory init "A" "short" "x" =
    { chat_store := [], long_term_memory := [("A", [])] } := by decide


/-- `get_long_term_memory`'s string component is the `". "`-join of the
session's fact list. -/
theorem render_eq_intercalate (s : MemState) (sid : String) :
    (get_long_term_memory s sid).1 = String.intercalate ". " (factsOf s sid) := rfl

/-- The fact list of the invoked session after one `chat` turn: same
append-then-trim behaviour as `update_long_term_memory`. -/
theorem factsOf_chat_self (s : MemState) (sid inp r : String) :
    factsOf (chat s sid inp r).2 sid =
      (fun l => if l.length > 5 then l.drop (l.length - 5) else l)
        (factsOf s sid ++ if inp.length > 20 then ["User said: " ++ inp] else []) := by
  have h : factsOf (chat s sid inp r).2 sid =
      factsOf (update_long_term_memory s sid inp r) sid := by
    unfold factsOf
    rw [chat_ltm]
  rw [h, factsOf_update_self]

namespace Claims

/-- C9: noninterference of the model response — `update_long_term_memory`
never reads its `output` argument, so calls differing only in the output
text produce identical state (in particular identical long-term memory),
and the response text is never stored as a fact. -/
theorem update_output_noninterference (s : MemState) (sid inp o1 o2 : String) :
    update_long_term_memory s sid inp o1 = update_long_term_memory s sid inp o2 := rfl

/-- C10: `get_long_term_memory` is read-only — it returns the state
unchanged, and for a session with no long-term entry it returns the empty
string without creating an entry; `get_chat_history`, by contrast, does
create an entry for an unseen session id, changing the state. -/
theorem get_long_term_memory_read_only (s : MemState) (sid : String) :
    (get_long_term_memory s sid).2 = s ∧
    (dictLookup s.long_term_memory sid = none →
      (get_long_term_memory s sid).1 = "" ∧
      dictLookup (get_long_term_memory s sid).2.long_term_memory sid = none) ∧
    (dictLookup s.chat_store sid = none → (get_chat_history s sid).2 ≠ s) := by
  refine ⟨rfl, fun h => ⟨by simp [get_long_term_memory, h, String.intercalate],
      by simp [get_long_term_memory, h]⟩,
    fun h heq => ?_⟩
  have hsome : dictLookup ((get_chat_history s sid).2).chat_store sid = some [] := by
    simp [get_chat_history, h, dictLookup_dictInsert_self]
  rw [heq, h] at hsome
  exact Option.noConfusion hsome

/-- Witness for C10 at the empty initial state and session id `"A"`. -/
theorem get_long_term_memory_read_only_witness :
    (get_long_term_memory init "A").2 = init ∧
    (get_long_term_memory init "A").1 = "" ∧
    (get_chat_history init "A").2 ≠ init :=
  ⟨(get_long_term_memory_read_only init "A").1,
   ((get_long_term_memory_read_only init "A").2.1 rfl).1,
   (get_long_term_memory_read_only init "A").2.2 rfl⟩

/-- C4 counterexample: the claim says `get_chat_history` fails with
`InvalidSessionId` on an empty session id, but the code performs no
validation: on the empty id it succeeds and creates a session keyed by
`""` like any other id. -/
theorem get_chat_history_empty_id_succeeds :
    get_chat_history_checked init "" ≠ Except.error MemError.invalidSessionId ∧
    get_chat_history_checked init "" =
      Except.ok ([], { chat_store := [("", [])], long_term_memory := [] }) := by
  constructor
  · intro h
    simp [get_chat_history_checked] at h
  · rfl

/-- C4 amended: `get_chat_history` never fails for ANY session id, the
empty string included — there is no validation and no `InvalidSessionId`
path; every call returns the session's history, which is exactly the
entry stored for that id in the resulting state. -/
theorem get_chat_history_never_fails (s : MemState) (sid : String) :
    ∃ h s', get_chat_history_checked s sid = Except.ok (h, s') ∧
      dictLookup s'.chat_store sid = some h := by
  unfold get_chat_history_checked get_chat_history
  cases hc : dictLookup s.chat_store sid with
  | some h => exact ⟨h, s, by simp [hc], hc⟩
  | none =>
    exact ⟨[], { s with chat_store := dictInsert s.chat_store sid [] },
      by simp [hc], by simp [dictLookup_dictInsert_self]⟩

/-- C8 counterexample: a rejected input is claimed to leave the system
state unchanged, but on a previously unseen session id the call creates an
empty long-term entry, so the state does change. -/
theorem rejected_input_changes_state :
    update_long_term_memory init "A" "hi" "r" ≠ init ∧
    update_long_term_memory init "A" "hi" "r" =
      { chat_store := [], long_term_memory := [("A", [])] } := by decide

/-- C8 amended: for a rejected candidate (length ≤ 20),
`update_long_term_memory` completes normally (the embedding is total, the
body has no raise path), leaves the chat store untouched, leaves every
session's fact list and rendered long-term view unchanged (given the
capacity invariant for the invoked session), and is a strict no-op on the
whole state whenever the invoked session already has a long-term entry;
the only possible state change is creating an empty entry for an unseen
session id. -/
theorem rejected_input_noop (s : MemState) (sid inp out : String)
    (hrej : inp.length ≤ 20) (hcap : (factsOf s sid).length ≤ 5) :
    (update_long_term_memory s sid inp out).chat_store = s.chat_store ∧
    (∀ k, factsOf (update_long_term_memory s sid inp out) k = factsOf s k) ∧
    (∀ k, (get_long_term_memory (update_long_term_memory s sid inp out) k).1 =
      (get_long_term_memory s k).1) ∧
    ((dictLookup s.long_term_memory sid).isSome →
      update_long_term_memory s sid inp out = s) := by
  have hlen : ¬ inp.length > 20 := by omega
  have hfacts : ∀ k, factsOf (update_long_term_memory s sid inp out) k = factsOf s k := by
    intro k
    by_cases hk : sid = k
    · subst hk
      rw [factsOf_update_self]
      simp only [hlen, if_false, List.append_nil]
      have : ¬ (factsOf s sid).length > 5 := by omega
      simp [this]
    · unfold factsOf
      rw [dictLookup_update_ne s sid inp out k hk]
  refine ⟨chat_store_update s sid inp out, hfacts,
    fun k => by simp only [get_long_term_memory]; rw [show (dictLookup
      (update_long_term_memory s sid inp out).long_term_memory k).getD [] =
      (dictLookup s.long_term_memory k).getD [] from hfacts k], ?_⟩
  intro hsome
  cases hc : dictLookup s.long_term_memory sid with
  | none => rw [hc] at hsome; simp at hsome
  | some l =>
    have hl : ¬ l.length > 5 := by
      have := hcap
      unfold factsOf at this
      rw [hc] at this
      simp at this
      omega
    unfold update_long_term_memory
    simp [hc, hlen, hl]

/-- Witness for C8's amended claim: a session that already holds one fact,
then receives the rejected two-character input `"hi"` — the state is
exactly unchanged. -/
theorem rejected_input_noop_witness :
    update_long_term_memory
        (update_long_term_memory init "A" "123456789012345678901" "r0")
        "A" "hi" "r" =
      update_long_term_memory init "A" "123456789012345678901" "r0" :=
  (rejected_input_noop (update_long_term_memory init "A" "123456789012345678901" "r0")
    "A" "hi" "r" (by decide) (by decide)).2.2.2 (by decide)

/-- C6: the capacity bound `size ≤ 5` on every session's long-term store is
preserved by `update_long_term_memory` and by every other public
operation, and consequently holds in every state reachable from the
initial (empty) state by any sequence of operations. -/
theorem capacity_invariant :
    (∀ (s : MemState) (op : Op), ltmWithinCapacity s → ltmWithinCapacity (step s op)) ∧
    ∀ ops : List Op, ltmWithinCapacity (List.foldl step init ops) := by
  constructor
  · exact fun s op hs => step_preserves_capacity s op hs
  · intro ops
    have main : ∀ (l : List Op) (s : MemState), ltmWithinCapacity s →
        ltmWithinCapacity (List.foldl step s l) := by
      intro l
      induction l with
      | nil => intro s hs; simpa using hs
      | cons op rest ih => intro s hs; exact ih _ (step_preserves_capacity s op hs)
    exact main ops init (by intro e he; simp [init] at he)

/-- Witness for C6: the bound holds concretely after an accepted update on
the initial state. -/
theorem capacity_invariant_witness :
    ltmWithinCapacity (step init (Op.updateLongTerm "A" "123456789012345678901" "r")) :=
  capacity_invariant.1 init (Op.updateLongTerm "A" "123456789012345678901" "r")
    (by intro e he; simp [init] at he)

/-- C1: FIFO eviction at capacity 5 — after seven accepted inputs are
recorded in order for a fresh session, the long-term store holds exactly
the facts of the last five inputs in insertion order, and
`get_long_term_memory` renders them joined by `". "` as
`f3. f4. f5. f6. f7` where `fk` is `"User said: " ++ xk`. -/
theorem fifo_eviction_seven (sid out x1 x2 x3 x4 x5 x6 x7 : String)
    (h1 : x1.length > 20) (h2 : x2.length > 20) (h3 : x3.length > 20)
    (h4 : x4.length > 20) (h5 : x5.length > 20) (h6 : x6.length > 20)
    (h7 : x7.length > 20) :
    let s7 := update_long_term_memory (update_long_term_memory
      (update_long_term_memory (update_long_term_memory (update_long_term_memory
      (update_long_term_memory (update_long_term_memory init sid x1 out)
      sid x2 out) sid x3 out) sid x4 out) sid x5 out) sid x6 out) sid x7 out
    factsOf s7 sid =
      ["User said: " ++ x3, "User said: " ++ x4, "User said: " ++ x5,
       "User said: " ++ x6, "User said: " ++ x7] ∧
    (get_long_term_memory s7 sid).1 =
      "User said: " ++ x3 ++ ". " ++ ("User said: " ++ x4) ++ ". " ++
        ("User said: " ++ x5) ++ ". " ++ ("User said: " ++ x6) ++ ". " ++
        ("User said: " ++ x7) := by
  intro s7
  have hs : factsOf s7 sid =
      ["User said: " ++ x3, "User said: " ++ x4, "User said: " ++ x5,
       "User said: " ++ x6, "User said: " ++ x7] := by
    show factsOf (update_long_term_memory _ sid x7 out) sid = _
    simp [update_ltm_eq, factsOf, init, dictLookup, dictInsert,
      dictLookup_dictInsert_self, dictInsert_dictInsert_self,
      h1, h2, h3, h4, h5, h6, h7]
  refine ⟨hs, ?_⟩
  show (get_long_term_memory s7 sid).1 = _
  simp only [get_long_term_memory]
  rw [show (dictLookup s7.long_term_memory sid).getD [] = factsOf s7 sid from rfl, hs]
  simp [String.intercalate, String.intercalate.go, String.append_assoc]

/-- Witness for C1 with seven concrete 21-character inputs. -/
theorem fifo_eviction_seven_witness :
    factsOf (update_long_term_memory (update_long_term_memory
      (update_long_term_memory (update_long_term_memory (update_long_term_memory
      (update_long_term_memory (update_long_term_memory init "A"
      "a1234567890123456789f1" "r") "A" "a1234567890123456789f2" "r")
      "A" "a1234567890123456789f3" "r") "A" "a1234567890123456789f4" "r")
      "A" "a1234567890123456789f5" "r") "A" "a1234567890123456789f6" "r")
      "A" "a1234567890123456789f7" "r") "A" =
      ["User said: a1234567890123456789f3", "User said: a1234567890123456789f4",
       "User said: a1234567890123456789f5", "User said: a1234567890123456789f6",
       "User said: a1234567890123456789f7"] :=
  (fifo_eviction_seven "A" "r" "a1234567890123456789f1" "a1234567890123456789f2"
    "a1234567890123456789f3" "a1234567890123456789f4" "a1234567890123456789f5"
    "a1234567890123456789f6" "a1234567890123456789f7"
    (by decide) (by decide) (by decide) (by decide) (by decide) (by decide)
    (by decide)).1

/-- C2: the retention boundary — for any state satisfying the capacity
bound, an input of at most 20 characters leaves the session's fact list
unchanged, and an input of more than 20 characters is retained as the
fact `"User said: " ++ input`, appearing as the newest (last) element of
the session's fact list. -/
theorem retention_boundary (s : MemState) (sid out : String)
    (hcap : (factsOf s sid).length ≤ 5) :
    (∀ inp : String, inp.length ≤ 20 →
      factsOf (update_long_term_memory s sid inp out) sid = factsOf s sid) ∧
    (∀ inp : String, inp.length > 20 →
      (factsOf (update_long_term_memory s sid inp out) sid).getLast? =
        some ("User said: " ++ inp) ∧
      "User said: " ++ inp ∈ factsOf (update_long_term_memory s sid inp out) sid) := by
  constructor
  · intro inp hinp
    have hlen : ¬ inp.length > 20 := by omega
    rw [factsOf_update_self]
    simp only [hlen, if_false, List.append_nil]
    have hle : ¬ (factsOf s sid).length > 5 := by omega
    simp [hle]
  · intro inp hinp
    rw [factsOf_update_self]
    simp only [hinp, if_true, if_pos]
    by_cases h6 : (factsOf s sid ++ ["User said: " ++ inp]).length > 5
    · rw [if_pos h6]
      have hl5 : (factsOf s sid).length = 5 := by
        simp only [List.length_append, List.length_singleton] at h6
        omega
      have hd : (factsOf s sid ++ ["User said: " ++ inp]).drop
          ((factsOf s sid ++ ["User said: " ++ inp]).length - 5) =
          (factsOf s sid).drop 1 ++ ["User said: " ++ inp] := by
        have hamt : (factsOf s sid ++ ["User said: " ++ inp]).length - 5 = 1 := by
          simp only [List.length_append, List.length_singleton, hl5]
        rw [hamt]
        exact List.drop_append_of_le_length (by omega)
      rw [hd]
      exact ⟨List.getLast?_concat _,
        List.mem_append_right _ (List.mem_singleton_self _)⟩
    · rw [if_neg h6]
      exact ⟨List.getLast?_concat _,
        List.mem_append_right _ (List.mem_singleton_self _)⟩

/-- Witness for C2 at the spec's exact boundary strings: the 20-character
input is not retained, the 21-character one is retained as
`"User said: 123456789012345678901"`. -/
theorem retention_boundary_witness :
    factsOf (update_long_term_memory init "A" "12345678901234567890" "r") "A" =
      factsOf init "A" ∧
    (factsOf (update_long_term_memory init "A" "123456789012345678901" "r") "A").getLast? =
      some "User said: 123456789012345678901" :=
  ⟨(retention_boundary init "A" "r" (by decide)).1 "12345678901234567890" (by decide),
   ((retention_boundary init "A" "r" (by decide)).2 "123456789012345678901"
     (by decide)).1⟩

/-- C3: `get_long_term_memory` joins the retained facts with the fixed
delimiter `". "` (empty string when there are none), and the four-input
scenario — Alice's three long inputs accepted, `"I love sunny days."`
rejected — renders exactly the spec's expected string, for any session id
and any model responses. -/
theorem renderLongTerm_scenario (sid r1 r2 r3 r4 : String) :
    (∀ s : MemState, factsOf s sid = [] → (get_long_term_memory s sid).1 = "") ∧
    (get_long_term_memory
      (chat ((chat ((chat ((chat init sid "Hello! My name is Alice." r1).2)
        sid "What's the weather like today?" r2).2)
        sid "I love sunny days." r3).2)
        sid "Do you remember my name?" r4).2 sid).1 =
      "User said: Hello! My name is Alice.. User said: What's the weather like today?. User said: Do you remember my name?" := by
  constructor
  · intro s hs
    rw [render_eq_intercalate, hs]
    simp [String.intercalate]
  · have hA : ("Hello! My name is Alice." : String).length > 20 := by decide
    have hW : ("What's the weather like today?" : String).length > 20 := by decide
    have hS : ¬ ("I love sunny days." : String).length > 20 := by decide
    have hD : ("Do you remember my name?" : String).length > 20 := by decide
    have hfacts : factsOf
        (chat ((chat ((chat ((chat init sid "Hello! My name is Alice." r1).2)
          sid "What's the weather like today?" r2).2)
          sid "I love sunny days." r3).2)
          sid "Do you remember my name?" r4).2 sid =
        ["User said: Hello! My name is Alice.",
         "User said: What's the weather like today?",
         "User said: Do you remember my name?"] := by
      rw [factsOf_chat_self, factsOf_chat_self, factsOf_chat_self,
        factsOf_chat_self]
      simp only [hA, hW, hS, hD, if_true, if_false]
      have h0 : factsOf init sid = [] := rfl
      rw [h0]
      simp
    rw [render_eq_intercalate, hfacts]
    decide

/-- Witness for C3 at session id `"user_123"` with concrete responses. -/
theorem renderLongTerm_scenario_witness :
    (get_long_term_memory init "user_123").1 = "" ∧
    (get_long_term_memory
      (chat ((chat ((chat ((chat init "user_123" "Hello! My name is Alice." "a").2)
        "user_123" "What's the weather like today?" "b").2)
        "user_123" "I love sunny days." "c").2)
        "user_123" "Do you remember my name?" "d").2 "user_123").1 =
      "User said: Hello! My name is Alice.. User said: What's the weather like today?. User said: Do you remember my name?" :=
  ⟨(renderLongTerm_scenario "user_123" "a" "b" "c" "d").1 init rfl,
   (renderLongTerm_scenario "user_123" "a" "b" "c" "d").2⟩

/-- C5: session creation is idempotent — a second `get_chat_history` call
for the same id returns the same history and leaves the state exactly as
the first call left it; the returned handle is precisely the entry stored
for that id (identity of the underlying state, in this embedding: the
handle *is* the unique map entry); and, for states with duplicate-free
keys (all reachable states), a session id has at most one entry. -/
theorem session_creation_idempotent (s : MemState) (sid : String) :
    (get_chat_history (get_chat_history s sid).2 sid).1 =
      (get_chat_history s sid).1 ∧
    (get_chat_history (get_chat_history s sid).2 sid).2 =
      (get_chat_history s sid).2 ∧
    dictLookup ((get_chat_history s sid).2).chat_store sid =
      some (get_chat_history s sid).1 ∧
    ((s.chat_store.map Prod.fst).Nodup →
      (((get_chat_history s sid).2).chat_store.map Prod.fst).Nodup ∧
      ∀ v₁ v₂, (sid, v₁) ∈ ((get_chat_history s sid).2).chat_store →
        (sid, v₂) ∈ ((get_chat_history s sid).2).chat_store → v₁ = v₂) := by
  cases hc : dictLookup s.chat_store sid with
  | some h =>
    have h1 : get_chat_history s sid = (h, s) := by
      unfold get_chat_history; rw [hc]
    refine ⟨by simp [h1], by simp [h1], by simp [h1, hc], fun hn => ?_⟩
    simp only [h1]
    exact ⟨hn, fun v₁ v₂ m₁ m₂ => dict_functional _ hn sid v₁ v₂ m₁ m₂⟩
  | none =>
    have h1 : get_chat_history s sid =
        ([], { s with chat_store := dictInsert s.chat_store sid [] }) := by
      unfold get_chat_history; rw [hc]
    have h2 : dictLookup (dictInsert s.chat_store sid []) sid =
        some ([] : ChatHist) := dictLookup_dictInsert_self _ _ _
    have h3 : get_chat_history
        { s with chat_store := dictInsert s.chat_store sid [] } sid =
        ([], { s with chat_store := dictInsert s.chat_store sid [] }) := by
      simp [get_chat_history, h2]
    refine ⟨by simp [h1, h3], by simp [h1, h3], by simp [h1, h2], fun hn => ?_⟩
    simp only [h1]
    have hn' : ((dictInsert s.chat_store sid []).map Prod.fst).Nodup :=
      dictInsert_keys_nodup _ _ _ hn
    exact ⟨hn', fun v₁ v₂ m₁ m₂ => dict_functional _ hn' sid v₁ v₂ m₁ m₂⟩

/-- Witness for C5 at the empty initial state. -/
theorem session_creation_idempotent_witness :
    (get_chat_history (get_chat_history init "A").2 "A").2 =
      (get_chat_history init "A").2 ∧
    (((get_chat_history init "A").2).chat_store.map Prod.fst).Nodup :=
  ⟨(session_creation_idempotent init "A").2.1,
   ((session_creation_idempotent init "A").2.2.2 (by simp [init])).1⟩

/-- C7: cross-session isolation — an operation invoked with session id `A`
leaves the chat-store entry, the long-term entry, and the rendered
long-term view of every other session id `B` unchanged; in particular,
content supplied for `A` never shows up in `B`'s render, which is
identical before and after the operation. -/
theorem cross_session_isolation (s : MemState) (op : Op) (B : String)
    (hB : Op.sid op ≠ B) :
    dictLookup (step s op).chat_store B = dictLookup s.chat_store B ∧
    dictLookup (step s op).long_term_memory B = dictLookup s.long_term_memory B ∧
    (get_long_term_memory (step s op) B).1 = (get_long_term_memory s B).1 := by
  have hr : ∀ s' : MemState,
      dictLookup s'.long_term_memory B = dictLookup s.long_term_memory B →
      (get_long_term_memory s' B).1 = (get_long_term_memory s B).1 := by
    intro s' h
    simp [get_long_term_memory, h]
  cases op with
  | getChatHistory A =>
    have hA : A ≠ B := hB
    have hltm : dictLookup ((get_chat_history s A).2).long_term_memory B =
        dictLookup s.long_term_memory B := by rw [get_chat_history_ltm]
    exact ⟨get_chat_history_frame s A B hA, hltm, hr _ hltm⟩
  | updateLongTerm A inp out =>
    have hA : A ≠ B := hB
    have hltm := dictLookup_update_ne s A inp out B hA
    exact ⟨by rw [show step s (Op.updateLongTerm A inp out) =
      update_long_term_memory s A inp out from rfl, chat_store_update],
      hltm, hr _ hltm⟩
  | getLongTerm A => exact ⟨rfl, rfl, rfl⟩
  | chatTurn A inp r =>
    have hA : A ≠ B := hB
    have hcs : dictLookup (chat s A inp r).2.chat_store B =
        dictLookup s.chat_store B := by
      rw [chat_chat_store, dictLookup_dictInsert_ne _ _ _ _ hA]
      exact get_chat_history_frame s A B hA
    have hltm : dictLookup (chat s A inp r).2.long_term_memory B =
        dictLookup s.long_term_memory B := by
      rw [chat_ltm]
      exact dictLookup_update_ne s A inp r B hA
    exact ⟨hcs, hltm, hr _ hltm⟩

/-- Witness for C7: a full chat turn for session `"A"` leaves session
`"B"`'s entries and render untouched. -/
theorem cross_session_isolation_witness :
    dictLookup (step init (Op.chatTurn "A" "123456789012345678901" "r")).chat_store
      "B" = dictLookup init.chat_store "B" ∧
    dictLookup (step init
      (Op.chatTurn "A" "123456789012345678901" "r")).long_term_memory "B" =
      dictLookup init.long_term_memory "B" ∧
    (get_long_term_memory (step init
      (Op.chatTurn "A" "123456789012345678901" "r")) "B").1 =
      (get_long_term_memory init "B").1 :=
  cross_session_isolation init (Op.chatTurn "A" "123456789012345678901" "r") "B"
    (by decide)

end Claims

end MemoryAgent
